import Mathlib

/-!
Shallow embedding of the LandClaiming plugin
(`src/Claiming/LandClaiming.rs`) together with theorems checking the
natural-language specification against it.

Modelling conventions:
* Rust `f64` world coordinates become `ℚ`; `f64 as i32` is truncation
  toward zero and `f64::floor` is the floor into `ℤ`.
* `HashMap<ChunkPosition, Claim>` becomes an association list observed
  only through `mapGet` / `mapContainsKey`; `insert` replaces any entry
  with the same key and `remove` erases it, as the hash map does.
* Handlers that mutate `self` or send chat messages become functions
  returning the new registry and the list of messages sent to the
  acting player; `event.set_cancelled(true)` becomes a `cancelled`
  flag in the returned outcome (initially `false`).
-/

namespace Claiming

/-- `feather_core::world::ChunkPosition`: an integer grid-cell identifier. -/
structure ChunkPosition where
  x : Int
  z : Int
deriving DecidableEq, Repr

/-- `feather_server::util::BlockPosition`: integer block coordinates. -/
structure BlockPosition where
  x : Int
  y : Int
  z : Int
deriving DecidableEq, Repr

/-- `feather_core::Position`: a floating-point world position, with the
coordinates modelled as rationals. -/
structure Position where
  x : ℚ
  y : ℚ
  z : ℚ
deriving DecidableEq, Repr

/-- `feather_server::util::Gamemode`. The source only ever compares a
gamemode against `Gamemode::Creative`. -/
inductive Gamemode where
  | survival
  | creative
  | adventure
  | spectator
deriving DecidableEq, Repr

/-- The slice of the host `Player` abstraction the source reads:
`name()`, `gamemode()` and `position()`. -/
structure Player where
  name : String
  gamemode : Gamemode
  position : Position
deriving DecidableEq, Repr

/-- The claim record (`struct Claim`): an owner and a member list. -/
structure Claim where
  owner : String
  members : List String
deriving DecidableEq, Repr

/-- Rust `f64 as i32`: truncation toward zero (saturation is irrelevant
for the coordinates considered here). -/
def ratTrunc (q : ℚ) : Int :=
  if q < 0 then ⌈q⌉ else ⌊q⌋

/-- `Position::block` (implicit in the source when a `Position` is handed
to `ChunkPosition::from_block_position`): floor each coordinate. -/
def Position.block (p : Position) : BlockPosition :=
  ⟨⌊p.x⌋, ⌊p.y⌋, ⌊p.z⌋⟩

/-- View a `BlockPosition` as a `Position` (integer coordinates). -/
def positionOfBlock (b : BlockPosition) : Position :=
  ⟨(b.x : ℚ), (b.y : ℚ), (b.z : ℚ)⟩

/-- `feather_core`'s `ChunkPosition::from_block_position`, an external
dependency not in this repository: block coordinates are arithmetically
shifted right by 4, i.e. floor-divided by the chunk size 16, matching the
spec's "integer-dividing/flooring its horizontal coordinates to chunk
scale". -/
def ChunkPosition.from_block_position (pos : BlockPosition) : ChunkPosition :=
  ⟨Int.fdiv pos.x 16, Int.fdiv pos.z 16⟩

/-- The registry's backing map, `HashMap<ChunkPosition, Claim>`, as an
association list. -/
abbrev Registry := List (ChunkPosition × Claim)

/-- `HashMap::get`. -/
def mapGet : Registry → ChunkPosition → Option Claim
  | [], _ => none
  | (k, v) :: rest, c => if k = c then some v else mapGet rest c

/-- `HashMap::contains_key`. -/
def mapContainsKey : Registry → ChunkPosition → Bool
  | [], _ => false
  | (k, _) :: rest, c => k == c || mapContainsKey rest c

/-- `HashMap::remove`: erase every pair carrying the key (a hash map
holds at most one). -/
def mapErase : Registry → ChunkPosition → Registry
  | [], _ => []
  | (k, v) :: rest, c => if k = c then mapErase rest c else (k, v) :: mapErase rest c

/-- `HashMap::insert`: the new binding replaces any existing one. -/
def mapInsert (m : Registry) (c : ChunkPosition) (v : Claim) : Registry :=
  (c, v) :: mapErase m c

/-- `struct LandClaiming { claims: HashMap<ChunkPosition, Claim> }`. -/
structure LandClaiming where
  claims : Registry
deriving DecidableEq, Repr

/-- Outcome of the block-interaction handler: whether the event's
cancelled flag was set, and the messages sent to the acting player. -/
structure InteractOutcome where
  cancelled : Bool
  messages : List String
deriving DecidableEq, Repr

/-- `LandClaiming::get_claim_at` (lines 93-96): resolve the position to a
chunk via `ChunkPosition::from_block_position` and look it up. -/
def LandClaiming.get_claim_at (self : LandClaiming) (position : Position) : Option Claim :=
  let chunk_pos := ChunkPosition.from_block_position position.block
  mapGet self.claims chunk_pos

/-- `LandClaiming::is_claimed_chunk` (lines 98-100). -/
def LandClaiming.is_claimed_chunk (self : LandClaiming) (chunk_pos : ChunkPosition) : Bool :=
  mapContainsKey self.claims chunk_pos

/-- `LandClaiming::handle_interact_block` (lines 50-71). Creative players
return immediately; otherwise a claim at the block's cell denies
(message + cancel) unless the player is the owner or a member. -/
def LandClaiming.handle_interact_block (self : LandClaiming) (player : Player)
    (block_pos : BlockPosition) : InteractOutcome :=
  if player.gamemode = Gamemode.creative then
    ⟨false, []⟩
  else
    match self.get_claim_at (positionOfBlock block_pos) with
    | some claim =>
        if claim.owner != player.name && !(claim.members.contains player.name) then
          ⟨true, ["This land is claimed by " ++ claim.owner ++ ". You cannot interact with it."]⟩
        else
          ⟨false, []⟩
    | none => ⟨false, []⟩

/-- Line 77 of the source: the movement handler builds its chunk position
as `ChunkPosition::new(new_pos.x as i32, new_pos.z as i32)` — raw `as i32`
truncation, with no chunk-scale division. -/
def moveCell (p : Position) : ChunkPosition :=
  ⟨ratTrunc p.x, ratTrunc p.z⟩

/-- `LandClaiming::handle_player_move` (lines 73-91), returning the
messages sent to the player. The source compares the `Option<String>`
`claim_owner` directly against the player's name, which does not
typecheck in Rust; it is embedded as comparison against
`some player.name`, the by-value reading the spec also singles out. The
`.unwrap_or("Unknown")` and `.unwrap_or_default()` fallbacks are kept
exactly. -/
def LandClaiming.handle_player_move (self : LandClaiming) (player : Player)
    (new_pos : Position) : List String :=
  let new_chunk_pos := moveCell new_pos
  if self.is_claimed_chunk new_chunk_pos then
    let claim := self.get_claim_at new_pos
    let claim_owner := claim.map Claim.owner
    if claim_owner != some player.name
        && !((claim.map (fun c => c.members.contains player.name)).getD false) then
      ["You entered land claimed by " ++ claim_owner.getD "Unknown"
        ++ ". Please respect their property."]
    else
      []
  else
    []

/-- `LandClaiming::claim_chunk` (lines 102-109): insert a claim with
`owner = player.name` and `members = vec![player.name]`, then report
success. Returns the updated plugin state and the messages sent. -/
def LandClaiming.claim_chunk (self : LandClaiming) (player : Player)
    (chunk_pos : ChunkPosition) : LandClaiming × List String :=
  let claim : Claim := ⟨player.name, [player.name]⟩
  (⟨mapInsert self.claims chunk_pos claim⟩, ["Chunk claimed successfully."])

/-- `LandClaiming::unclaim_chunk` (lines 111-122). -/
def LandClaiming.unclaim_chunk (self : LandClaiming) (player : Player)
    (chunk_pos : ChunkPosition) : LandClaiming × List String :=
  match mapGet self.claims chunk_pos with
  | some claim =>
      if claim.owner == player.name then
        (⟨mapErase self.claims chunk_pos⟩, ["Chunk unclaimed successfully."])
      else
        (self, ["You do not have permission to unclaim this chunk."])
  | none =>
      (self, ["This chunk is not claimed."])

/-- Lines 138-141 and 177-180: both commands build the issuer's chunk
position as `ChunkPosition::new(position.x.floor() as i32,
position.z.floor() as i32)` — a plain floor, with no chunk-scale
division. -/
def commandCell (pos : Position) : ChunkPosition :=
  ⟨⌊pos.x⌋, ⌊pos.z⌋⟩

/-- Outcome of a command execution: the plugin state afterwards and the
messages sent to the issuing player. -/
structure CommandOutcome where
  plugin : LandClaiming
  messages : List String
deriving DecidableEq, Repr

/-- `ClaimCommand::execute` (lines 136-149). The sender is modelled by
the result of `sender.as_player()`: `none` for a non-player sender. -/
def ClaimCommand.execute (plugin : LandClaiming) (sender : Option Player) : CommandOutcome :=
  match sender with
  | some player =>
      let player_chunk_pos := commandCell player.position
      if !(plugin.is_claimed_chunk player_chunk_pos) then
        let r := plugin.claim_chunk player player_chunk_pos
        ⟨r.1, r.2⟩
      else
        ⟨plugin, ["This chunk is already claimed."]⟩
  | none => ⟨plugin, []⟩

/-- `UnclaimCommand::execute` (lines 175-184). -/
def UnclaimCommand.execute (plugin : LandClaiming) (sender : Option Player) : CommandOutcome :=
  match sender with
  | some player =>
      let player_chunk_pos := commandCell player.position
      let r := plugin.unclaim_chunk player player_chunk_pos
      ⟨r.1, r.2⟩
  | none => ⟨plugin, []⟩

/-- A command invocation as the host dispatches it: one of the two
registered commands, executed by a player sender. -/
inductive Cmd where
  | claimCmd (p : Player)
  | unclaimCmd (p : Player)
deriving DecidableEq, Repr

/-- Registry state reached after one command. -/
def runCmd (r : LandClaiming) : Cmd → LandClaiming
  | .claimCmd p => (ClaimCommand.execute r (some p)).plugin
  | .unclaimCmd p => (UnclaimCommand.execute r (some p)).plugin

/-- Registry state reached from `r` by a sequence of commands. -/
def runCmds (r : LandClaiming) (cs : List Cmd) : LandClaiming :=
  cs.foldl runCmd r

/-! ### Basic lemmas about the registry map -/

theorem mapContainsKey_eq_isSome (m : Registry) (c : ChunkPosition) :
    mapContainsKey m c = (mapGet m c).isSome := by
  induction m with
  | nil => rfl
  | cons kv rest ih =>
      obtain ⟨k, v⟩ := kv
      by_cases h : k = c
      · simp [mapContainsKey, mapGet, h]
      · simp [mapContainsKey, mapGet, h, ih]

theorem mapGet_mapErase_self (m : Registry) (c : ChunkPosition) :
    mapGet (mapErase m c) c = none := by
  induction m with
  | nil => rfl
  | cons kv rest ih =>
      obtain ⟨k, v⟩ := kv
      by_cases h : k = c
      · simp [mapErase, h, ih]
      · simp [mapErase, mapGet, h, ih]

theorem mapGet_mapErase_ne (m : Registry) (c c' : ChunkPosition) (h : c' ≠ c) :
    mapGet (mapErase m c) c' = mapGet m c' := by
  induction m with
  | nil => rfl
  | cons kv rest ih =>
      obtain ⟨k, v⟩ := kv
      by_cases hk : k = c
      · subst hk
        simp [mapErase, mapGet, Ne.symm h, ih]
      · by_cases hk' : k = c'
        · simp [mapErase, mapGet, hk, hk', h]
        · simp [mapErase, mapGet, hk, hk', ih]

theorem mapGet_mapInsert (m : Registry) (c c' : ChunkPosition) (v : Claim) :
    mapGet (mapInsert m c v) c' = if c = c' then some v else mapGet m c' := by
  by_cases h : c = c'
  · simp [mapInsert, mapGet, h]
  · simp [mapInsert, mapGet, h, mapGet_mapErase_ne m c c' (Ne.symm h)]

/-- The Boolean deny-condition of the interaction handler, read as the
proposition "the player is neither the owner nor a member". -/
theorem interactCond_eq_true_iff (claim : Claim) (n : String) :
    ((claim.owner != n && !(claim.members.contains n)) = true) ↔
      ¬ (claim.owner = n ∨ n ∈ claim.members) := by
  simp [not_or]

/-! ### Concrete actors, registries and positions used in witnesses and
failing executions -/

/-- A survival-mode player standing at `(0.5, 0.5)`; every resolution in
the source places this position in cell `(0, 0)`. -/
def alice : Player := ⟨"Alice", Gamemode.survival, ⟨mkRat 1 2, 0, mkRat 1 2⟩⟩

/-- The same position, creative mode. -/
def aliceCreative : Player := ⟨"Alice", Gamemode.creative, ⟨mkRat 1 2, 0, mkRat 1 2⟩⟩

/-- A survival-mode player named Bob at `(0.5, 0.5)`. -/
def bobHome : Player := ⟨"Bob", Gamemode.survival, ⟨mkRat 1 2, 0, mkRat 1 2⟩⟩

/-- A registry holding a single claim by Bob over cell `(0, 0)`. -/
def bobReg : LandClaiming := ⟨[(⟨0, 0⟩, ⟨"Bob", ["Bob"]⟩)]⟩

/-- C1: The block-interaction decision permits unconditionally, with no
cancel and no message, when the actor is in creative mode (for every
registry, so no lookup influences the outcome); otherwise, when the claim
lookup at the block position yields a claim, it permits silently iff the
actor is the owner or a member and in the remaining case cancels the
event and sends a denial message naming the claim owner; with no claim it
permits silently. -/
theorem C1_block_interaction_decision (self : LandClaiming) (player : Player)
    (bp : BlockPosition) :
    (player.gamemode = Gamemode.creative →
      self.handle_interact_block player bp = ⟨false, []⟩) ∧
    (player.gamemode ≠ Gamemode.creative →
      (∀ claim, self.get_claim_at (positionOfBlock bp) = some claim →
        ((claim.owner = player.name ∨ player.name ∈ claim.members) →
          self.handle_interact_block player bp = ⟨false, []⟩) ∧
        (¬ (claim.owner = player.name ∨ player.name ∈ claim.members) →
          self.handle_interact_block player bp =
            ⟨true, ["This land is claimed by " ++ claim.owner
              ++ ". You cannot interact with it."]⟩)) ∧
      (self.get_claim_at (positionOfBlock bp) = none →
        self.handle_interact_block player bp = ⟨false, []⟩)) := by
  constructor
  · intro h
    simp [LandClaiming.handle_interact_block, h]
  · intro h
    refine ⟨fun claim hc => ⟨fun hp => ?_, fun hp => ?_⟩, fun hnone => ?_⟩
    · have hfalse : ¬ ((claim.owner != player.name
          && !(claim.members.contains player.name)) = true) :=
        fun hb => (interactCond_eq_true_iff claim player.name).mp hb hp
      simp [LandClaiming.handle_interact_block, h, hc, hfalse]
      exact fun hno => hp.resolve_left hno
    · have htrue : (claim.owner != player.name
          && !(claim.members.contains player.name)) = true :=
        (interactCond_eq_true_iff claim player.name).mpr hp
      simp [LandClaiming.handle_interact_block, h, hc, htrue]
      exact not_or.mp hp
    · simp [LandClaiming.handle_interact_block, h, hnone]

/-- Witness for C1: in Bob's claim at cell `(0, 0)`, a creative-mode
Alice is permitted, a survival-mode Alice is denied with the message
naming Bob, and Bob himself is permitted. -/
theorem C1_block_interaction_decision_witness :
    bobReg.handle_interact_block aliceCreative ⟨3, 60, 5⟩ = ⟨false, []⟩ ∧
    bobReg.handle_interact_block alice ⟨3, 60, 5⟩ =
      ⟨true, ["This land is claimed by Bob. You cannot interact with it."]⟩ ∧
    bobReg.handle_interact_block bobHome ⟨3, 60, 5⟩ = ⟨false, []⟩ := by
  refine ⟨(C1_block_interaction_decision bobReg aliceCreative ⟨3, 60, 5⟩).1 rfl, ?_, ?_⟩
  · have h := (((C1_block_interaction_decision bobReg alice ⟨3, 60, 5⟩).2
      (by decide)).1 ⟨"Bob", ["Bob"]⟩ (by decide)).2 (by decide)
    rw [h]
    decide
  · exact (((C1_block_interaction_decision bobReg bobHome ⟨3, 60, 5⟩).2
      (by decide)).1 ⟨"Bob", ["Bob"]⟩ (by decide)).1 (by decide)

/-- The spec scenario-5 position `(-1.5, 0.2)`. -/
def posNegA : Position := ⟨mkRat (-3) 2, 0, mkRat 1 5⟩

/-- The spec scenario-5 position `(-0.9, 0.9)`. -/
def posNegB : Position := ⟨mkRat (-9) 10, 0, mkRat 9 10⟩

/-- A survival-mode player standing at `(20.5, 0.5)`. -/
def ann : Player := ⟨"Ann", Gamemode.survival, ⟨mkRat 41 2, 0, mkRat 1 2⟩⟩

/-- C2: failing evaluation for the claim that every path uses the same
floor-at-chunk-granularity resolution. Only the lookup path
(`ChunkPosition::from_block_position`) sends both scenario-5 positions
to cell `(-1, 0)`; the command path floors without dividing by the chunk
size and sends `(-1.5, 0.2)` to `(-2, 0)`, and the movement path
truncates toward zero without dividing and sends `(-0.9, 0.9)` to
`(0, 0)`. Consequently a claim command issued at `(20.5, 0.5)` stores a
claim at cell `(20, 0)` that the interaction/movement lookup, which
consults cell `(1, 0)`, never finds. -/
theorem C2_resolution_failing_input :
    ChunkPosition.from_block_position posNegA.block = ⟨-1, 0⟩ ∧
    ChunkPosition.from_block_position posNegB.block = ⟨-1, 0⟩ ∧
    commandCell posNegA = ⟨-2, 0⟩ ∧
    moveCell posNegB = ⟨0, 0⟩ ∧
    mapGet (ClaimCommand.execute ⟨[]⟩ (some ann)).plugin.claims ⟨20, 0⟩ =
      some ⟨"Ann", ["Ann"]⟩ ∧
    (ClaimCommand.execute ⟨[]⟩ (some ann)).plugin.get_claim_at ann.position = none := by
  decide

/-- C3: For every registry state and player issuer, the claim command at
the issuer's resolved cell: if that cell already holds a claim it only
sends "This chunk is already claimed." and returns the registry
untouched (so the existing claim keeps its owner and members); if the
cell is unclaimed it inserts a claim with `owner = issuer` and
`members = [issuer]` there and reports success. -/
theorem C3_claim_command (plugin : LandClaiming) (player : Player) :
    (∀ cl, mapGet plugin.claims (commandCell player.position) = some cl →
      ClaimCommand.execute plugin (some player) =
        ⟨plugin, ["This chunk is already claimed."]⟩) ∧
    (mapGet plugin.claims (commandCell player.position) = none →
      ClaimCommand.execute plugin (some player) =
        ⟨⟨mapInsert plugin.claims (commandCell player.position)
            ⟨player.name, [player.name]⟩⟩,
          ["Chunk claimed successfully."]⟩) := by
  constructor
  · intro cl hcl
    have hb : plugin.is_claimed_chunk (commandCell player.position) = true := by
      rw [LandClaiming.is_claimed_chunk, mapContainsKey_eq_isSome, hcl]
      rfl
    simp [ClaimCommand.execute, hb]
  · intro hnone
    have hb : plugin.is_claimed_chunk (commandCell player.position) = false := by
      rw [LandClaiming.is_claimed_chunk, mapContainsKey_eq_isSome, hnone]
      rfl
    simp [ClaimCommand.execute, hb, LandClaiming.claim_chunk]

/-- Witness for C3: on the empty registry Alice's claim command creates
her claim over cell `(0, 0)` and reports success; on a registry where
Bob already claims `(0, 0)` it reports "already claimed" and changes
nothing. -/
theorem C3_claim_command_witness :
    ClaimCommand.execute ⟨[]⟩ (some alice) =
      ⟨⟨[(⟨0, 0⟩, ⟨"Alice", ["Alice"]⟩)]⟩, ["Chunk claimed successfully."]⟩ ∧
    ClaimCommand.execute bobReg (some alice) =
      ⟨bobReg, ["This chunk is already claimed."]⟩ := by
  constructor
  · have h := (C3_claim_command ⟨[]⟩ alice).2 (by decide)
    rw [h]
    decide
  · exact (C3_claim_command bobReg alice).1 ⟨"Bob", ["Bob"]⟩ (by decide)

/-- C4: For every registry state, cell and requester, `unclaim_chunk`
removes the claim and reports "Chunk unclaimed successfully." exactly
when the cell holds a claim owned by the requester (afterwards the
lookup at that cell is `none`); with no claim there it reports "This
chunk is not claimed." leaving the registry unchanged; with a claim
owned by someone else it reports the no-permission message and the
registry — hence the claim with its owner and members — is unchanged. -/
theorem C4_unclaim_ownership (self : LandClaiming) (player : Player)
    (c : ChunkPosition) :
    (∀ cl, mapGet self.claims c = some cl → cl.owner = player.name →
      self.unclaim_chunk player c =
        (⟨mapErase self.claims c⟩, ["Chunk unclaimed successfully."]) ∧
      mapGet (mapErase self.claims c) c = none) ∧
    (mapGet self.claims c = none →
      self.unclaim_chunk player c = (self, ["This chunk is not claimed."])) ∧
    (∀ cl, mapGet self.claims c = some cl → cl.owner ≠ player.name →
      self.unclaim_chunk player c =
        (self, ["You do not have permission to unclaim this chunk."])) := by
  refine ⟨fun cl hcl hown => ?_, fun hnone => ?_, fun cl hcl hown => ?_⟩
  · exact ⟨by simp [LandClaiming.unclaim_chunk, hcl, hown],
      mapGet_mapErase_self self.claims c⟩
  · simp [LandClaiming.unclaim_chunk, hnone]
  · simp [LandClaiming.unclaim_chunk, hcl, hown]

/-- Witness for C4: Bob unclaims his own cell `(0, 0)` successfully and
the cell becomes unclaimed; on the empty registry the command reports
"not claimed"; Alice cannot unclaim Bob's cell and the registry stays as
it was. -/
theorem C4_unclaim_ownership_witness :
    (bobReg.unclaim_chunk bobHome ⟨0, 0⟩ =
        (⟨[]⟩, ["Chunk unclaimed successfully."]) ∧
      mapGet (mapErase bobReg.claims ⟨0, 0⟩) ⟨0, 0⟩ = none) ∧
    LandClaiming.unclaim_chunk ⟨[]⟩ bobHome ⟨0, 0⟩ =
      (⟨[]⟩, ["This chunk is not claimed."]) ∧
    bobReg.unclaim_chunk alice ⟨0, 0⟩ =
      (bobReg, ["You do not have permission to unclaim this chunk."]) := by
  refine ⟨?_, ?_, ?_⟩
  · have h := (C4_unclaim_ownership bobReg bobHome ⟨0, 0⟩).1 ⟨"Bob", ["Bob"]⟩
      (by decide) (by decide)
    exact ⟨by rw [h.1]; decide, h.2⟩
  · exact (C4_unclaim_ownership ⟨[]⟩ bobHome ⟨0, 0⟩).2.1 (by decide)
  · exact (C4_unclaim_ownership bobReg alice ⟨0, 0⟩).2.2 ⟨"Bob", ["Bob"]⟩
      (by decide) (by decide)

/-- A survival-mode player named Bob standing at `(16.5, 0.5)`: the
command and movement paths resolve this position to cell `(16, 0)`, the
lookup path to cell `(1, 0)`. -/
def bobFar : Player := ⟨"Bob", Gamemode.survival, ⟨mkRat 33 2, 0, mkRat 1 2⟩⟩

/-- C5: failing execution for the movement decision. Starting from the
empty registry, Bob issues the claim command at `(16.5, 0.5)`, which
stores his claim at cell `(16, 0)` — the very cell the movement check
consults for that position. A movement event at the same position then
sends "You entered land claimed by Unknown. Please respect their
property.", although Bob owns the claim at the movement check's cell and
the chunk-granularity cell of his position, `(1, 0)`, is unclaimed —
the claim requires silence in both readings. -/
theorem C5_move_notice_failing_input :
    mapGet (ClaimCommand.execute ⟨[]⟩ (some bobFar)).plugin.claims
        (moveCell bobFar.position) = some ⟨"Bob", ["Bob"]⟩ ∧
    (ClaimCommand.execute ⟨[]⟩ (some bobFar)).plugin.get_claim_at bobFar.position =
      none ∧
    (ClaimCommand.execute ⟨[]⟩ (some bobFar)).plugin.handle_player_move bobFar
        bobFar.position =
      ["You entered land claimed by Unknown. Please respect their property."] := by
  decide

/-- A registry holding a single claim by Carol over cell `(30, 0)`. -/
def carolReg : LandClaiming := ⟨[(⟨30, 0⟩, ⟨"Carol", ["Carol"]⟩)]⟩

/-- A survival-mode player named Dave standing at `(30.5, 0.5)`. -/
def dave : Player := ⟨"Dave", Gamemode.survival, ⟨mkRat 61 2, 0, mkRat 1 2⟩⟩

/-- C6: failing execution. With Carol's claim at cell `(30, 0)` and Dave
moving to `(30.5, 0.5)`, the is-claimed check passes (it consults cell
`(30, 0)`) while the detail lookup returns nothing (it consults cell
`(1, 0)`); the movement handler then does not suppress the notice: it
sends one naming the placeholder owner "Unknown". -/
theorem C6_unknown_notice_failing_input :
    carolReg.is_claimed_chunk (moveCell dave.position) = true ∧
    carolReg.get_claim_at dave.position = none ∧
    carolReg.handle_player_move dave dave.position =
      ["You entered land claimed by Unknown. Please respect their property."] := by
  decide

/-- C7: For every registry state and position, `is_claimed_chunk` of the
cell resolved from the position agrees with `get_claim_at` returning a
claim: `is_claimed(cell) = lookup(cell).is_some()`. (Both operations are
embedded as pure functions of the registry — they perform no mutation by
construction, matching the read-only `&self` receivers in the source.) -/
theorem C7_is_claimed_iff_lookup (self : LandClaiming) (p : Position) :
    self.is_claimed_chunk (ChunkPosition.from_block_position p.block) =
      (self.get_claim_at p).isSome := by
  simp [LandClaiming.is_claimed_chunk, LandClaiming.get_claim_at,
    mapContainsKey_eq_isSome]

/-- C8: Executing the claim command or the unclaim command leaves the
registry entry at every cell other than the issuer's resolved cell
exactly as it was. -/
theorem C8_frame_other_cells (plugin : LandClaiming) (player : Player)
    (c' : ChunkPosition) (h : c' ≠ commandCell player.position) :
    mapGet (ClaimCommand.execute plugin (some player)).plugin.claims c' =
      mapGet plugin.claims c' ∧
    mapGet (UnclaimCommand.execute plugin (some player)).plugin.claims c' =
      mapGet plugin.claims c' := by
  constructor
  · by_cases hb : plugin.is_claimed_chunk (commandCell player.position) = true
    · simp [ClaimCommand.execute, hb]
    · simp [ClaimCommand.execute, hb, LandClaiming.claim_chunk, mapGet_mapInsert,
        Ne.symm h]
  · cases hm : mapGet plugin.claims (commandCell player.position) with
    | none => simp [UnclaimCommand.execute, LandClaiming.unclaim_chunk, hm]
    | some cl =>
        by_cases hown : cl.owner = player.name
        · simp [UnclaimCommand.execute, LandClaiming.unclaim_chunk, hm, hown,
            mapGet_mapErase_ne _ _ _ h]
        · simp [UnclaimCommand.execute, LandClaiming.unclaim_chunk, hm, hown]

/-- Witness for C8: with Bob's claim at `(0, 0)` and Alice issuing the
claim and the unclaim command from `(0.5, 0.5)` (cell `(0, 0)`), the
entry at the distinct cell `(7, 9)` is untouched by both. -/
theorem C8_frame_other_cells_witness :
    mapGet (ClaimCommand.execute bobReg (some alice)).plugin.claims ⟨7, 9⟩ =
      mapGet bobReg.claims ⟨7, 9⟩ ∧
    mapGet (UnclaimCommand.execute bobReg (some alice)).plugin.claims ⟨7, 9⟩ =
      mapGet bobReg.claims ⟨7, 9⟩ :=
  C8_frame_other_cells bobReg alice ⟨7, 9⟩ (by decide)

/-- C9: a command invocation whose sender is not a player
(`sender.as_player()` yields nothing, modelled as the sender argument
`none`) leaves the registry untouched and sends no message; both
executors are total functions, so no error reaches the host. -/
theorem C9_non_player_sender (plugin : LandClaiming) :
    ClaimCommand.execute plugin none = ⟨plugin, []⟩ ∧
    UnclaimCommand.execute plugin none = ⟨plugin, []⟩ :=
  ⟨rfl, rfl⟩

/-- Every claim stored in the registry carries `members = [owner]`. -/
def MembersInv (r : LandClaiming) : Prop :=
  ∀ c cl, mapGet r.claims c = some cl → cl.members = [cl.owner]

/-- One command execution preserves the members invariant. -/
theorem membersInv_runCmd {r : LandClaiming} (h : MembersInv r) :
    ∀ cmd, MembersInv (runCmd r cmd) := by
  intro cmd c cl hget
  cases cmd with
  | claimCmd p =>
      by_cases hb : r.is_claimed_chunk (commandCell p.position) = true
      · rw [runCmd] at hget
        simp [ClaimCommand.execute, hb] at hget
        exact h c cl hget
      · rw [runCmd] at hget
        simp [ClaimCommand.execute, hb, LandClaiming.claim_chunk,
          mapGet_mapInsert] at hget
        by_cases hc : commandCell p.position = c
        · rw [if_pos hc] at hget
          cases hget
          rfl
        · rw [if_neg hc] at hget
          exact h c cl hget
  | unclaimCmd p =>
      rw [runCmd] at hget
      cases hm : mapGet r.claims (commandCell p.position) with
      | none =>
          simp [UnclaimCommand.execute, LandClaiming.unclaim_chunk, hm] at hget
          exact h c cl hget
      | some cl0 =>
          by_cases hown : cl0.owner = p.name
          · simp [UnclaimCommand.execute, LandClaiming.unclaim_chunk, hm, hown] at hget
            by_cases hc : c = commandCell p.position
            · rw [hc, mapGet_mapErase_self] at hget
              cases hget
            · rw [mapGet_mapErase_ne _ _ _ hc] at hget
              exact h c cl hget
          · simp [UnclaimCommand.execute, LandClaiming.unclaim_chunk, hm, hown] at hget
            exact h c cl hget

/-- A command sequence preserves the members invariant. -/
theorem membersInv_runCmds {r : LandClaiming} (h : MembersInv r) (cs : List Cmd) :
    MembersInv (runCmds r cs) := by
  induction cs generalizing r with
  | nil => exact h
  | cons cmd rest ih => exact ih (membersInv_runCmd h cmd)

/-- C10: in every registry state reachable from the empty registry by
claim-command and unclaim-command executions, every stored claim has
`members = [owner]`; in particular the owner occurs in the member list,
so the owner-or-member check never excludes the owner. -/
theorem C10_members_invariant (cs : List Cmd) (c : ChunkPosition) (cl : Claim)
    (h : mapGet (runCmds ⟨[]⟩ cs).claims c = some cl) :
    cl.members = [cl.owner] ∧ cl.owner ∈ cl.members := by
  have hinv : MembersInv (runCmds ⟨[]⟩ cs) :=
    membersInv_runCmds (fun c cl hget => by simp [mapGet] at hget) cs
  have hm := hinv c cl h
  refine ⟨hm, ?_⟩
  rw [hm]
  exact List.mem_singleton_self cl.owner

/-- Witness for C10: after Alice's claim command on the empty registry,
the stored claim at `(0, 0)` satisfies the invariant. -/
theorem C10_members_invariant_witness :
    Claim.members ⟨"Alice", ["Alice"]⟩ = [Claim.owner ⟨"Alice", ["Alice"]⟩] ∧
      Claim.owner ⟨"Alice", ["Alice"]⟩ ∈ Claim.members ⟨"Alice", ["Alice"]⟩ :=
  C10_members_invariant [Cmd.claimCmd alice] ⟨0, 0⟩ ⟨"Alice", ["Alice"]⟩ (by decide)

end Claiming
